import Mathlib

/-!
Verification of the `templates` Go package (c9845/templates): a convenience
layer over Go's `html/template` that discovers template source files on disk
or in an embedded bundle, groups them per subdirectory (inheriting the base
directory's files into each group), caches the compiled groups in a registry
keyed by subdirectory name, and serves a named template from a named group.

The external collaborators (the filesystem, the embedded bundle, the template
engine, the HTTP response writer and the host OS path separator) are modelled
by a `Host` structure of pure functions; compiled template groups are
represented by the list of source file paths handed to the engine, which is
all the package's own logic ever decides about them.  Everything the package
itself computes (`validate`, `Build`, `buildPathsToFiles`, `Show`, and the
template helper functions) is translated directly from the Go source.
-/

namespace Templates

/-! ## Models of the Go standard library functions the package uses -/

/-- Characters trimmed by Go's `strings.TrimSpace` (`unicode.IsSpace`),
modelled over the Latin-1 range: space, tab, newline, vertical tab, form
feed, carriage return, NEL (U+0085) and NBSP (U+00A0). -/
def isSpaceGo (ch : Char) : Bool :=
  ch = ' ' || ch = '\t' || ch = '\n' || ch = '\r' ||
  ch.toNat = 11 || ch.toNat = 12 || ch.toNat = 133 || ch.toNat = 160

/-- Drop leading whitespace (left half of `strings.TrimSpace`). -/
def dropSpaceLeft (l : List Char) : List Char := l.dropWhile isSpaceGo

/-- Drop trailing whitespace (right half of `strings.TrimSpace`). -/
def dropSpaceRight (l : List Char) : List Char := (l.reverse.dropWhile isSpaceGo).reverse

/-- Model of Go `strings.TrimSpace`. -/
def trimSpace (s : String) : String := ⟨dropSpaceRight (dropSpaceLeft s.data)⟩

/-- Model of Go `filepath.ToSlash`: replace every occurrence of the OS path
separator with a forward slash (the identity when the separator is `/`). -/
def toSlash (sep : Char) (path : String) : String :=
  if sep = '/' then path
  else ⟨path.data.map (fun ch => if ch = sep then '/' else ch)⟩

/-- Model of Go `filepath.FromSlash`: replace every forward slash with the OS
path separator (the identity when the separator is `/`). -/
def fromSlash (sep : Char) (path : String) : String :=
  if sep = '/' then path
  else ⟨path.data.map (fun ch => if ch = '/' then sep else ch)⟩

/-- Model of Go `filepath.Join` on two elements: empty elements are ignored
and the remaining elements are joined with the OS separator.  (The `Clean`
normalization of dot segments and repeated separators that Go applies to the
joined result is not modelled; no behaviour verified here depends on it.) -/
def fpJoin (sep : Char) (a b : String) : String :=
  if a = "" then b
  else if b = "" then a
  else a ++ String.singleton sep ++ b

/-- Worker for `filepathExt`: walks the file path from its last character
backwards (the input list is the reversed path), accumulating characters
until it meets a dot (returning the suffix of the original path starting at
that dot) or a path separator or the start of the path (returning `[]`).
On Windows both `/` and `\` are path separators, on Unix only `/` is, so a
character is a separator exactly when it is `/` or equals `sep`. -/
def extAux (sep : Char) (acc : List Char) : List Char → List Char
  | [] => []
  | ch :: rest =>
    if ch == '/' || ch == sep then []
    else if ch == '.' then ch :: acc
    else extAux sep (ch :: acc) rest

/-- Model of Go `filepath.Ext`: the suffix of `path` beginning at the final
dot in the final path element; empty if there is no dot. -/
def filepathExt (sep : Char) (path : String) : String :=
  ⟨extAux sep [] path.data.reverse⟩

/-- The final path element of `path` (the characters after the last path
separator), as a character list.  Used to state what `filepath.Ext` inspects. -/
def finalComponent (sep : Char) (path : String) : List Char :=
  (path.data.reverse.takeWhile (fun ch => !(ch == '/' || ch == sep))).reverse

/-! ## The data model -/

/-- A directory entry as returned by `os.ReadDir` / `embed.FS.ReadDir`:
a name and an is-directory flag. -/
structure DirEntry where
  name : String
  isDir : Bool
deriving DecidableEq

/-- The errors the package can return from `validate` / `Build`, mirroring
the package-level error values plus the propagated stat / read-dir / parse
errors from the Go standard library. -/
inductive GoError where
  | basePathNotSet
  | invalidSubDir
  | noEmbeddedFiles
  | statNotExist (path : String)
  | readDirError (msg : String)
  | parseError (group : String)
deriving DecidableEq

/-- A compiled template group, represented by the list of source file paths
that was handed to `template.ParseFiles` (with the FuncMap attached inside
the abstracted engine). -/
abbrev Tmpl := List String

/-- The registry `Config.templates`: a Go map from subdirectory name to
compiled group, modelled as an association list with insert-or-replace. -/
abbrev Registry := List (String × Tmpl)

/-- The fixed rendering context `Show` assembles for every render call. -/
structure ShowData where
  development : Bool
  useLocalFiles : Bool
  cacheBustFiles : List (String × String)
  injectedData : String
deriving DecidableEq

/-- What `Show` does to its `http.ResponseWriter`: either `http.Error` with a
status code and message, or a successful render of the executed template. -/
inductive ShowResult where
  | httpError (status : Nat) (msg : String)
  | rendered (body : String)
deriving DecidableEq

/-- The external collaborators: the OS path separator, `os.Stat` (only its
`os.IsNotExist` outcome is ever consulted), the two `ReadDir` functions,
and the template engine's `ParseFiles` (success/failure only — the compiled
unit is represented by its source list) and `ExecuteTemplate`. -/
structure Host where
  sep : Char
  sepValid : sep = '/' ∨ sep = '\\'
  statNotExist : String → Bool
  readDirOS : String → Except String (List DirEntry)
  readDirFS : String → Except String (List DirEntry)
  parseOk : List String → Bool
  executeTemplate : Tmpl → String → ShowData → Except String String

/-- The `Config` struct.  `embeddedFSSet` models `EmbeddedFS ≠ embed.FS{}`
(the zero-value comparison in `validate`); the `FuncMap` is attached inside
the abstracted engine and carries no decision logic of its own. -/
structure Config where
  development : Bool := false
  useLocalFiles : Bool := false
  basePath : String := ""
  subDirs : List String := []
  extension : String := ""
  useEmbedded : Bool := false
  embeddedFSSet : Bool := false
  cacheBustingFilePairs : List (String × String) := []
  templates : Registry := []

/-- Go map lookup `c.templates[k]` with its `ok` flag folded into `Option`. -/
def mapGet : Registry → String → Option Tmpl
  | [], _ => none
  | (k2, v) :: rest, k => if k2 = k then some v else mapGet rest k

/-- Go map assignment `c.templates[k] = v` (insert or replace). -/
def mapInsert : Registry → String → Tmpl → Registry
  | [], k, v => [(k, v)]
  | (k2, v2) :: rest, k, v =>
    if k2 = k then (k, v) :: rest else (k2, v2) :: mapInsert rest k v

/-- The key set of the registry. -/
def registryKeys (m : Registry) : List String := m.map Prod.fst

/-- The package constant `defaultExtension`. -/
def defaultExtension : String := "html"

/-! ## validate -/

/-- The `for idx, p := range c.SubDirs` loop of `Config.validate` (OnDisk
only): trim each name, reject blank names, normalize to native separators
with `filepath.FromSlash`, stat the joined path, and write the normalized
name back in place.  Returns the (partially) rewritten list together with
the first error. -/
def validateSubDirsLoop (h : Host) (basePath : String) :
    List String → List String × Option GoError
  | [] => ([], none)
  | p0 :: rest =>
    let p1 := trimSpace p0
    if p1 = "" then (p0 :: rest, some .invalidSubDir)
    else
      let p2 := fromSlash h.sep p1
      if h.statNotExist (fpJoin h.sep basePath p2) then
        (p0 :: rest, some (.statNotExist (fpJoin h.sep basePath p2)))
      else
        let r := validateSubDirsLoop h basePath rest
        (p2 :: r.1, r.2)

/-- `Config.validate`: trim and require the base path, stat it (OnDisk only),
check and normalize the subdirectory list (OnDisk only), default a blank
extension, and require an embedded bundle in Embedded mode.  Go mutates the
receiver in place; here the (partially) normalized config is returned
alongside the first error. -/
def validate (h : Host) (c : Config) : Config × Option GoError :=
  let bp := trimSpace c.basePath
  if bp = "" then ({ c with basePath := bp }, some .basePathNotSet)
  else if !c.useEmbedded && h.statNotExist bp then
    ({ c with basePath := bp }, some (.statNotExist bp))
  else
    let r := if c.useEmbedded then (c.subDirs, (none : Option GoError))
             else validateSubDirsLoop h bp c.subDirs
    if r.2.isSome then ({ c with basePath := bp, subDirs := r.1 }, r.2)
    else
      let ext0 := trimSpace c.extension
      let ext := if ext0 = "" then defaultExtension else ext0
      if c.useEmbedded && !c.embeddedFSSet then
        ({ c with basePath := bp, subDirs := r.1, extension := ext },
         some .noEmbeddedFiles)
      else
        ({ c with basePath := bp, subDirs := r.1, extension := ext }, none)

/-! ## buildPathsToFiles -/

/-- The `readFunc` selection at the top of `Config.buildPathsToFiles`. -/
def readDirFor (h : Host) (c : Config) : String → Except String (List DirEntry) :=
  if c.useEmbedded then h.readDirFS else h.readDirOS

/-- The directory path actually passed to `readFunc`: forward-slash
normalized first when using embedded files. -/
def listedDir (h : Host) (c : Config) (pathToDirectory : String) : String :=
  if c.useEmbedded then toSlash h.sep pathToDirectory else pathToDirectory

/-- The complete path built for one matching directory entry: joined with the
directory, then forward-slash normalized when using embedded files. -/
def entryOutPath (h : Host) (c : Config) (dir name : String) : String :=
  let completePathToFile := fpJoin h.sep dir name
  if c.useEmbedded then toSlash h.sep completePathToFile else completePathToFile

/-- The `for _, f := range files` loop of `Config.buildPathsToFiles`: skip
directories, skip entries whose `filepath.Ext` is not `"." + c.Extension`
(an exact-extension check, deliberately not `strings.Contains`), and append
the complete path of every remaining entry. -/
def buildPathsLoop (h : Host) (c : Config) (dir : String) : List DirEntry → List String
  | [] => []
  | f :: rest =>
    if f.isDir then buildPathsLoop h c dir rest
    else if filepathExt h.sep f.name ≠ "." ++ c.extension then buildPathsLoop h c dir rest
    else entryOutPath h c dir f.name :: buildPathsLoop h c dir rest

/-- `Config.buildPathsToFiles`: list the directory with the mode's ReadDir
(after normalizing the directory path in Embedded mode) and build the
complete path to every immediate file with the configured extension. -/
def buildPathsToFiles (h : Host) (c : Config) (pathToDirectory : String) :
    Except GoError (List String) :=
  let dir := listedDir h c pathToDirectory
  match readDirFor h c dir with
  | .error e => .error (.readDirError e)
  | .ok files => .ok (buildPathsLoop h c dir files)

/-- The directory listing result as a plain list (empty when listing failed);
convenient for stating what a completed `Build` put in the registry. -/
def discoveredFiles (h : Host) (c : Config) (dir : String) : List String :=
  match buildPathsToFiles h c dir with
  | .ok ps => ps
  | .error _ => []

/-! ## Build -/

/-- The complete path to one subdirectory as `Config.Build` computes it:
`filepath.Join(c.BasePath, subDir)`, forward-slash normalized in Embedded
mode. -/
def subdirPath (h : Host) (c : Config) (subDir : String) : String :=
  let completePathToSubDir := fpJoin h.sep c.basePath subDir
  if c.useEmbedded then toSlash h.sep completePathToSubDir else completePathToSubDir

/-- The `for _, subDir := range c.SubDirs` loop of `Config.Build`: discover
each subdirectory's files, skip subdirectories with no matching files, merge
the base files after the subdirectory's own files, parse, and store under the
subdirectory's name.  The registry is threaded as `tmpls`; on the first error
the loop stops with the registry as mutated so far (exactly the in-place Go
map). -/
def buildSubDirs (h : Host) (c : Config) (baseFilePaths : List String)
    (tmpls : Registry) : List String → Registry × Option GoError
  | [] => (tmpls, none)
  | subDir :: rest =>
    match buildPathsToFiles h c (subdirPath h c subDir) with
    | .error e => (tmpls, some e)
    | .ok subdirFilepaths =>
      if subdirFilepaths = [] then buildSubDirs h c baseFilePaths tmpls rest
      else
        let merged := subdirFilepaths ++ baseFilePaths
        if h.parseOk merged then
          buildSubDirs h c baseFilePaths (mapInsert tmpls subDir merged) rest
        else (tmpls, some (.parseError subDir))

/-- The body of `Config.Build` after validation: start from the freshly
emptied registry, discover and (when non-empty) parse the base directory's
files under key `""`, then run the subdirectory loop. -/
def buildFromEmpty (h : Host) (c : Config) : Registry × Option GoError :=
  match buildPathsToFiles h c c.basePath with
  | .error e => ([], some e)
  | .ok baseFilePaths =>
    if baseFilePaths = [] then buildSubDirs h c baseFilePaths [] c.subDirs
    else if h.parseOk baseFilePaths then
      buildSubDirs h c baseFilePaths (mapInsert [] "" baseFilePaths) c.subDirs
    else ([], some (.parseError ""))

/-- `Config.Build`: validate (returning its error with the config as
partially normalized, registry untouched), empty out `c.templates`, and
populate it group by group.  The returned config carries the registry as it
stands when `Build` returns — also on error, exactly as the in-place Go
mutation leaves it. -/
def Build (h : Host) (c : Config) : Config × Option GoError :=
  let v := validate h c
  if v.2.isSome then v
  else
    let r := buildFromEmpty h v.1
    ({ v.1 with templates := r.1 }, r.2)

/-! ## Show -/

/-- The data struct `Show` assembles for the template. -/
def mkShowData (c : Config) (injectedData : String) : ShowData :=
  { development := c.development
    useLocalFiles := c.useLocalFiles
    cacheBustFiles := c.cacheBustingFilePairs
    injectedData := injectedData }

/-- The template-name fixup at the top of `Show`: append `"." + c.Extension`
exactly when `filepath.Ext(templateName)` is empty. -/
def resolveShowName (sep : Char) (c : Config) (templateName : String) : String :=
  if filepathExt sep templateName = "" then templateName ++ "." ++ c.extension
  else templateName

/-- `http.StatusInternalServerError`. -/
def statusInternalServerError : Nat := 500

/-- `http.StatusNotFound`. -/
def statusNotFound : Nat := 404

/-- `Config.Show`: assemble the rendering context, resolve the template
name, look the group up in the registry (reporting `http.Error` with an
internal-server-error status when absent), and execute the named template
(reporting `http.Error` with a not-found status plus a log line when
execution fails).  The second component is the log output. -/
def Show (h : Host) (c : Config) (subdir templateName injectedData : String) :
    ShowResult × List String :=
  let data := mkShowData c injectedData
  let templateName := resolveShowName h.sep c templateName
  match mapGet c.templates subdir with
  | none =>
    (.httpError statusInternalServerError
      ("templates.Show: invalid subdirectory \x27" ++ subdir ++ "\x27"), [])
  | some t =>
    match h.executeTemplate t templateName data with
    | .error e =>
      (.httpError statusNotFound e, ["templates.Show: error during execute " ++ e])
    | .ok out => (.rendered out, [])

/-! ## Template helper functions (templates-templatefuncs.go) -/

/-- A calendar date as produced by Go `time.Parse("2006-01-02", ...)`. -/
structure GoDate where
  year : Nat
  month : Nat
  day : Nat
deriving DecidableEq

/-- Go's leap-year rule (`time.isLeap`). -/
def isLeapYear (y : Nat) : Bool := y % 4 = 0 && (y % 100 ≠ 0 || y % 400 = 0)

/-- Go's `time.daysIn`: the number of days in the given month. -/
def daysInMonth (y m : Nat) : Nat :=
  if m = 2 then (if isLeapYear y then 29 else 28)
  else if m = 4 || m = 6 || m = 9 || m = 11 then 30
  else 31

/-- The numeric value of an ASCII digit. -/
def digitVal (ch : Char) : Option Nat :=
  if ch.isDigit then some (ch.toNat - 48) else none

/-- Parse exactly `k` ASCII digits into a number (Go `time` package `getnum`
with fixed width). -/
def parseFixedDigits : Nat → Nat → List Char → Option (Nat × List Char)
  | 0, acc, l => some (acc, l)
  | _ + 1, _, [] => none
  | k + 1, acc, ch :: rest =>
    match digitVal ch with
    | some d => parseFixedDigits k (10 * acc + d) rest
    | none => none

/-- Model of Go `time.Parse` with the fixed layout `"2006-01-02"`: four year
digits, dash, two month digits, dash, two day digits, nothing left over; the
month must be 1..12 and the day must be within the month's length, else the
parse fails (Go's "month/day out of range" errors). -/
def goTimeParseYMD (value : String) : Option GoDate :=
  match parseFixedDigits 4 0 value.data with
  | none => none
  | some (y, rest) =>
    match rest with
    | '-' :: rest2 =>
      match parseFixedDigits 2 0 rest2 with
      | none => none
      | some (mo, rest3) =>
        match rest3 with
        | '-' :: rest4 =>
          match parseFixedDigits 2 0 rest4 with
          | some (d, []) =>
            if mo < 1 || 12 < mo then none
            else if d < 1 || daysInMonth y mo < d then none
            else some ⟨y, mo, d⟩
          | _ => none
        | _ => none
    | _ => none

/-- `FuncDateReformat`: parse the incoming `yyyy-mm-dd` date; if parsing
fails, return the original value unchanged; otherwise reformat with
`time.Time.Format`, which belongs to the external `time` library and is
taken as a parameter. -/
def FuncDateReformat (timeFormat : GoDate → String → String)
    (date format : String) : String :=
  match goTimeParseYMD date with
  | none => date
  | some t => timeFormat t format

/-- Two's-complement wrap-around of Go's 64-bit `int`. -/
def wrapInt64 (z : Int) : Int := (z + 2 ^ 63) % 2 ^ 64 - 2 ^ 63

/-- `FuncAddInt`: 64-bit integer addition. -/
def FuncAddInt (x y : Int) : Int := wrapInt64 (x + y)

/-! ## Concrete hosts and configs used to witness the theorems -/

/-- An on-disk host: Unix separator, every path exists, every parse
succeeds, every template execution fails with "boom" (only `Show`'s failure
path is exercised against it). -/
def exHostOnDisk : Host where
  sep := '/'
  sepValid := Or.inl rfl
  statNotExist := fun _ => false
  readDirOS := fun d =>
    if d = "base" then .ok [⟨"h.html", false⟩, ⟨"report.html.bak", false⟩, ⟨"app", true⟩]
    else if d = "base/app" then .ok [⟨"x.html", false⟩]
    else if d = "base/help" then .ok []
    else .error "open: no such file or directory"
  readDirFS := fun _ => .error "not embedded"
  parseOk := fun _ => true
  executeTemplate := fun _ _ _ => .error "boom"

/-- The same host except that only the base group parses: the first merged
subdirectory group fails to compile. -/
def exHostParseFail : Host :=
  { exHostOnDisk with parseOk := fun ps => ps == ["base/h.html"] }

/-- A Windows-like embedded host: backslash separator, one embedded
directory. -/
def exHostEmbedded : Host where
  sep := '\\'
  sepValid := Or.inr rfl
  statNotExist := fun _ => false
  readDirOS := fun _ => .error "not on disk"
  readDirFS := fun d =>
    if d = "_testdata/templates" then .ok [⟨"index.html", false⟩]
    else .error "file does not exist"
  parseOk := fun _ => true
  executeTemplate := fun _ _ _ => .error "boom"

/-- A valid on-disk configuration over `exHostOnDisk`: base directory
`base`, subdirectories `app` (one file) and `help` (no matching files). -/
def exCfgOnDisk : Config :=
  { basePath := "base", subDirs := ["app", "help"], extension := "html" }

/-- An Embedded-mode configuration whose subdirectory list contains a blank
entry — `validate` accepts it because the subdirectory checks only run for
on-disk configurations. -/
def exCfgEmbeddedBlank : Config :=
  { basePath := "b", subDirs := [""], extension := "html",
    useEmbedded := true, embeddedFSSet := true }

/-- An Embedded-mode configuration used to exercise `buildPathsToFiles`
path normalization on the Windows-like host. -/
def exCfgEmbedded : Config :=
  { basePath := "_testdata\\templates", subDirs := [], extension := "html",
    useEmbedded := true, embeddedFSSet := true }

/-- A configuration with an already-built registry holding one group
(`app`), used to exercise `Show`. -/
def exCfgBuilt : Config :=
  { basePath := "base", subDirs := ["app"], extension := "html",
    templates := [("app", ["base/app/x.html", "base/h.html"])] }

/-! ## Helper lemmas: lists and trimming -/

theorem dropWhile_append_eq {α : Type} (p : α → Bool) (l : List α) :
    ∃ t, t ++ l.dropWhile p = l := by
  induction l with
  | nil => exact ⟨[], rfl⟩
  | cons a l ih =>
    by_cases h : p a = true
    · obtain ⟨t, ht⟩ := ih
      exact ⟨a :: t, by simp [List.dropWhile_cons, h, ht]⟩
    · exact ⟨[], by simp [List.dropWhile_cons, h]⟩

theorem dropWhile_head_not {α : Type} (p : α → Bool) (l : List α) :
    l.dropWhile p = [] ∨ ∃ a as, l.dropWhile p = a :: as ∧ p a = false := by
  induction l with
  | nil => exact Or.inl rfl
  | cons a l ih =>
    by_cases h : p a = true
    · simpa [List.dropWhile_cons, h] using ih
    · exact Or.inr ⟨a, l, by simp [List.dropWhile_cons, h], by simpa using h⟩

theorem dropWhile_idem {α : Type} (p : α → Bool) (l : List α) :
    (l.dropWhile p).dropWhile p = l.dropWhile p := by
  rcases dropWhile_head_not p l with h | ⟨a, as, h, hpa⟩
  · simp [h]
  · simp [h, List.dropWhile_cons, hpa]

theorem dropWhile_map {α β : Type} (p : β → Bool) (f : α → β) (l : List α) :
    (l.map f).dropWhile p = (l.dropWhile (fun a => p (f a))).map f := by
  induction l with
  | nil => rfl
  | cons a l ih => by_cases h : p (f a) = true <;> simp [List.dropWhile_cons, h, ih]

theorem head_not_of_dropWhile_self {α : Type} (p : α → Bool) (b : α) (x : List α)
    (hd : (b :: x).dropWhile p = b :: x) : p b = false := by
  by_cases hb : p b = true
  · rw [List.dropWhile_cons, if_pos hb] at hd
    have hlen := congrArg List.length hd
    have hle : (x.dropWhile p).length ≤ x.length := by
      obtain ⟨t, ht⟩ := dropWhile_append_eq p x
      calc (x.dropWhile p).length ≤ t.length + (x.dropWhile p).length := Nat.le_add_left _ _
        _ = x.length := by rw [← List.length_append, ht]
    simp only [List.length_cons] at hlen
    omega
  · simpa using hb

theorem string_mk_eq_empty {l : List Char} : (⟨l⟩ : String) = "" ↔ l = [] := by
  constructor
  · intro h
    have := congrArg String.data h
    simpa using this
  · intro h
    rw [h]

theorem string_data_eq_nil (s : String) : s.data = [] ↔ s = "" := by
  cases s
  exact string_mk_eq_empty.symm

theorem dropSpaceLeft_idem (l : List Char) : dropSpaceLeft (dropSpaceLeft l) = dropSpaceLeft l :=
  dropWhile_idem isSpaceGo l

theorem dropSpaceRight_idem (l : List Char) :
    dropSpaceRight (dropSpaceRight l) = dropSpaceRight l := by
  simp [dropSpaceRight, List.reverse_reverse, dropWhile_idem]

theorem dropSpaceLeft_dropSpaceRight (l : List Char) (h : dropSpaceLeft l = l) :
    dropSpaceLeft (dropSpaceRight l) = dropSpaceRight l := by
  obtain ⟨t, ht⟩ := dropWhile_append_eq isSpaceGo l.reverse
  have hl : l = (l.reverse.dropWhile isSpaceGo).reverse ++ t.reverse := by
    have := congrArg List.reverse ht
    simpa using this.symm
  cases hr : (l.reverse.dropWhile isSpaceGo).reverse with
  | nil => simp [dropSpaceRight, dropSpaceLeft, hr]
  | cons b bs =>
    have hb : isSpaceGo b = false := by
      apply head_not_of_dropWhile_self isSpaceGo b (bs ++ t.reverse)
      rw [hr] at hl
      have : l = b :: (bs ++ t.reverse) := by simpa using hl
      rw [← this]
      exact h
    simp [dropSpaceRight, dropSpaceLeft, hr, List.dropWhile_cons, hb]

theorem trimSpace_idem (s : String) : trimSpace (trimSpace s) = trimSpace s := by
  show (⟨dropSpaceRight (dropSpaceLeft (dropSpaceRight (dropSpaceLeft s.data)))⟩ : String) = _
  rw [dropSpaceLeft_dropSpaceRight _ (dropSpaceLeft_idem s.data), dropSpaceRight_idem]
  rfl

theorem dropSpace_map (f : Char → Char) (hf : ∀ ch, isSpaceGo (f ch) = isSpaceGo ch)
    (l : List Char) :
    dropSpaceRight (dropSpaceLeft (l.map f)) = (dropSpaceRight (dropSpaceLeft l)).map f := by
  have hpred : (fun a => isSpaceGo (f a)) = isSpaceGo := funext hf
  have h1 : ∀ m : List Char, (m.map f).dropWhile isSpaceGo = (m.dropWhile isSpaceGo).map f := by
    intro m
    rw [dropWhile_map, hpred]
  have h2 : ∀ m : List Char, (m.map f).reverse = m.reverse.map f := by
    intro m
    simp
  simp only [dropSpaceLeft, dropSpaceRight]
  rw [h1, h2, h1, h2]

theorem trimSpace_fromSlash (sep : Char) (hsep : sep = '/' ∨ sep = '\\') (s : String) :
    trimSpace (fromSlash sep s) = fromSlash sep (trimSpace s) := by
  rcases hsep with rfl | rfl
  · simp [fromSlash]
  · have hf : ∀ ch : Char, isSpaceGo (if ch = '/' then '\\' else ch) = isSpaceGo ch := by
      intro ch
      by_cases hc : ch = '/'
      · subst hc; decide
      · simp [hc]
    simp only [fromSlash, if_neg (show ¬('\\' = '/') by decide)]
    show (⟨dropSpaceRight (dropSpaceLeft _)⟩ : String) = _
    rw [show (String.mk (s.data.map fun ch => if ch = '/' then '\\' else ch)).data =
          s.data.map (fun ch => if ch = '/' then '\\' else ch) from rfl]
    rw [dropSpace_map _ hf]
    rfl

theorem fromSlash_idem (sep : Char) (s : String) :
    fromSlash sep (fromSlash sep s) = fromSlash sep s := by
  by_cases h : sep = '/'
  · simp [fromSlash, h]
  · simp only [fromSlash, if_neg h]
    congr 1
    rw [List.map_map]
    apply List.map_congr_left
    intro ch _
    by_cases hc : ch = '/'
    · simp [Function.comp, hc, h]
    · simp [Function.comp, hc]

theorem fromSlash_eq_empty (sep : Char) (s : String) :
    fromSlash sep s = "" ↔ s = "" := by
  by_cases h : sep = '/'
  · simp [fromSlash, h]
  · simp only [fromSlash, if_neg h]
    rw [string_mk_eq_empty, List.map_eq_nil_iff, string_data_eq_nil]

/-! ## Helper lemmas: the registry -/

theorem mapGet_insert_self (m : Registry) (k : String) (v : Tmpl) :
    mapGet (mapInsert m k v) k = some v := by
  induction m with
  | nil => simp [mapInsert, mapGet]
  | cons kv rest ih =>
    obtain ⟨k2, v2⟩ := kv
    by_cases h : k2 = k <;> simp [mapInsert, mapGet, h, ih]

theorem mapGet_insert_ne (m : Registry) (k : String) (v : Tmpl) (k2 : String)
    (h : k2 ≠ k) : mapGet (mapInsert m k v) k2 = mapGet m k2 := by
  have h2 : k ≠ k2 := Ne.symm h
  induction m with
  | nil => simp [mapInsert, mapGet, h2]
  | cons kv rest ih =>
    obtain ⟨k3, v3⟩ := kv
    by_cases h3 : k3 = k
    · subst h3
      simp [mapInsert, mapGet, h2]
    · simp [mapInsert, mapGet, h3, ih]

theorem mem_registryKeys (m : Registry) (k : String) :
    k ∈ registryKeys m ↔ (mapGet m k).isSome := by
  induction m with
  | nil => simp [registryKeys, mapGet]
  | cons kv rest ih =>
    obtain ⟨k2, v⟩ := kv
    simp only [registryKeys, List.map_cons, List.mem_cons, mapGet] at ih ⊢
    by_cases h : k2 = k
    · subst h
      simp
    · have h2 : ¬ k = k2 := fun hh => h hh.symm
      rw [if_neg h]
      simp [h2, ih]

/-! ## Helper lemmas: discovery -/

theorem buildPathsLoop_congr (h : Host) (c c2 : Config) (dir : String)
    (hemb : c.useEmbedded = c2.useEmbedded) (hext : c.extension = c2.extension) :
    ∀ es, buildPathsLoop h c dir es = buildPathsLoop h c2 dir es := by
  intro es
  induction es with
  | nil => rfl
  | cons f rest ih =>
    simp only [buildPathsLoop, entryOutPath, hemb, hext, ih]

theorem buildPathsToFiles_congr (h : Host) (c c2 : Config) (dir : String)
    (hemb : c.useEmbedded = c2.useEmbedded) (hext : c.extension = c2.extension) :
    buildPathsToFiles h c dir = buildPathsToFiles h c2 dir := by
  simp only [buildPathsToFiles, listedDir, readDirFor, hemb,
    buildPathsLoop_congr h c c2 _ hemb hext]

theorem buildPathsToFiles_templates (h : Host) (c : Config) (t : Registry) (dir : String) :
    buildPathsToFiles h { c with templates := t } dir = buildPathsToFiles h c dir :=
  buildPathsToFiles_congr h _ _ dir rfl rfl

theorem discoveredFiles_templates (h : Host) (c : Config) (t : Registry) (dir : String) :
    discoveredFiles h { c with templates := t } dir = discoveredFiles h c dir := by
  simp only [discoveredFiles, buildPathsToFiles_templates]

theorem buildPathsLoop_eq (h : Host) (c : Config) (dir : String) (es : List DirEntry) :
    buildPathsLoop h c dir es =
      (es.filter
        (fun f => !f.isDir && (filepathExt h.sep f.name == "." ++ c.extension))).map
        (fun f => entryOutPath h c dir f.name) := by
  induction es with
  | nil => rfl
  | cons f rest ih =>
    by_cases hd : f.isDir = true
    · simp [buildPathsLoop, List.filter_cons, hd, ih]
    · have hd2 : f.isDir = false := by simpa using hd
      by_cases hx : filepathExt h.sep f.name = "." ++ c.extension
      · simp [buildPathsLoop, List.filter_cons, hd2, hx, ih]
      · simp [buildPathsLoop, List.filter_cons, hd2, hx, ih]

theorem mem_buildPathsLoop (h : Host) (c : Config) (dir : String) :
    ∀ es p, p ∈ buildPathsLoop h c dir es → ∃ f : DirEntry, p = entryOutPath h c dir f.name := by
  intro es
  induction es with
  | nil => intro p hp; cases hp
  | cons f rest ih =>
    intro p hp
    simp only [buildPathsLoop] at hp
    split at hp
    · exact ih p hp
    · split at hp
      · exact ih p hp
      · rcases List.mem_cons.mp hp with hh | hh
        · exact ⟨f, hh⟩
        · exact ih p hh

theorem toSlash_no_backslash (s : String) : '\\' ∉ (toSlash '\\' s).data := by
  simp only [toSlash]
  rw [if_neg (by decide)]
  intro hmem
  obtain ⟨ch, _, heq⟩ := List.mem_map.mp hmem
  by_cases h : ch = '\\' <;> simp [h] at heq

/-! ## Helper lemmas: filepath.Ext -/

theorem extAux_eq_nil_iff (sep : Char) (l acc : List Char) :
    extAux sep acc l = [] ↔ '.' ∉ l.takeWhile (fun ch => !(ch == '/' || ch == sep)) := by
  induction l generalizing acc with
  | nil => simp [extAux]
  | cons ch rest ih =>
    simp only [List.takeWhile_cons]
    by_cases h1 : (ch == '/' || ch == sep) = true
    · have hp : (!(ch == '/' || ch == sep)) = false := by simp [h1]
      rw [extAux, if_pos h1, if_neg (by simp [hp])]
      simp
    · have h1f : (ch == '/' || ch == sep) = false := by simpa using h1
      have hp : (!(ch == '/' || ch == sep)) = true := by rw [h1f]; rfl
      rw [extAux, if_neg h1, if_pos hp]
      by_cases h2 : ch = '.'
      · subst h2
        rw [if_pos (by rfl)]
        simp
      · rw [if_neg (show ¬((ch == '.') = true) from by simp [h2])]
        rw [ih]
        have hne : ¬ ('.' = ch) := fun hh => h2 hh.symm
        simp [hne]

theorem filepathExt_eq_empty_iff (sep : Char) (p : String) :
    filepathExt sep p = "" ↔ '.' ∉ finalComponent sep p := by
  rw [show filepathExt sep p = ⟨extAux sep [] p.data.reverse⟩ from rfl, string_mk_eq_empty,
    extAux_eq_nil_iff]
  simp [finalComponent]

/-! ## Helper lemmas: the build loops -/

theorem buildSubDirs_ok_lookup (h : Host) (c : Config) (bfs : Tmpl) :
    ∀ (ds : List String) (tm tm2 : Registry),
      buildSubDirs h c bfs tm ds = (tm2, none) →
      ∀ k, mapGet tm2 k =
        if k ∈ ds ∧ discoveredFiles h c (subdirPath h c k) ≠ []
        then some (discoveredFiles h c (subdirPath h c k) ++ bfs)
        else mapGet tm k := by
  intro ds
  induction ds with
  | nil =>
    intro tm tm2 hrun k
    simp only [buildSubDirs] at hrun
    injection hrun with h1 _
    subst h1
    simp
  | cons d rest ih =>
    intro tm tm2 hrun k
    rcases hbp : buildPathsToFiles h c (subdirPath h c d) with e | fs
    · simp only [buildSubDirs, hbp] at hrun
      simp at hrun
    · simp only [buildSubDirs, hbp] at hrun
      have hdfd : discoveredFiles h c (subdirPath h c d) = fs := by
        simp [discoveredFiles, hbp]
      by_cases hfs : fs = []
      · rw [if_pos hfs] at hrun
        have hrec := ih tm tm2 hrun k
        rw [hrec]
        by_cases hk : k = d
        · subst hk
          rw [hdfd] at *
          simp [hfs]
        · have hmem : (k ∈ d :: rest) ↔ (k ∈ rest) := by simp [hk]
          simp only [hmem]
      · rw [if_neg hfs] at hrun
        by_cases hpk : h.parseOk (fs ++ bfs) = true
        · rw [if_pos hpk] at hrun
          have hrec := ih _ tm2 hrun k
          by_cases hk : k = d
          · subst hk
            rw [hdfd]
            rw [if_pos ⟨List.mem_cons_self _ _, hfs⟩]
            rw [hrec]
            by_cases hkr : k ∈ rest ∧ discoveredFiles h c (subdirPath h c k) ≠ []
            · rw [if_pos hkr, hdfd]
            · rw [if_neg hkr, mapGet_insert_self]
          · have hmem : (k ∈ d :: rest) ↔ (k ∈ rest) := by simp [hk]
            rw [hrec, mapGet_insert_ne _ _ _ _ hk]
            simp only [hmem]
        · rw [if_neg hpk] at hrun
          simp at hrun

theorem buildSubDirs_err_lookup (h : Host) (c : Config) (bfs : Tmpl) :
    ∀ (ds : List String) (tm tm2 : Registry) (e : GoError),
      buildSubDirs h c bfs tm ds = (tm2, some e) →
      ∀ k v, mapGet tm2 k = some v →
        mapGet tm k = some v ∨
        (k ∈ ds ∧ discoveredFiles h c (subdirPath h c k) ≠ [] ∧
          v = discoveredFiles h c (subdirPath h c k) ++ bfs) := by
  intro ds
  induction ds with
  | nil =>
    intro tm tm2 e hrun
    simp only [buildSubDirs] at hrun
    simp at hrun
  | cons d rest ih =>
    intro tm tm2 e hrun k v hget
    rcases hbp : buildPathsToFiles h c (subdirPath h c d) with e2 | fs
    · simp only [buildSubDirs, hbp] at hrun
      injection hrun with h1 _
      subst h1
      exact Or.inl hget
    · simp only [buildSubDirs, hbp] at hrun
      have hdfd : discoveredFiles h c (subdirPath h c d) = fs := by
        simp [discoveredFiles, hbp]
      by_cases hfs : fs = []
      · rw [if_pos hfs] at hrun
        rcases ih tm tm2 e hrun k v hget with hl | ⟨hm, hne, hv⟩
        · exact Or.inl hl
        · exact Or.inr ⟨List.mem_cons_of_mem _ hm, hne, hv⟩
      · rw [if_neg hfs] at hrun
        by_cases hpk : h.parseOk (fs ++ bfs) = true
        · rw [if_pos hpk] at hrun
          rcases ih _ tm2 e hrun k v hget with hl | ⟨hm, hne, hv⟩
          · by_cases hk : k = d
            · subst hk
              rw [mapGet_insert_self] at hl
              injection hl with hl
              refine Or.inr ⟨List.mem_cons_self _ _, ?_, ?_⟩
              · rw [hdfd]; exact hfs
              · rw [hdfd]; exact hl.symm
            · rw [mapGet_insert_ne _ _ _ _ hk] at hl
              exact Or.inl hl
          · exact Or.inr ⟨List.mem_cons_of_mem _ hm, hne, hv⟩
        · rw [if_neg hpk] at hrun
          injection hrun with h1 _
          subst h1
          exact Or.inl hget

/-! ## Helper lemmas: validate -/

theorem validateSubDirsLoop_ok_nonblank (h : Host) (bp : String) :
    ∀ (ds sds : List String), validateSubDirsLoop h bp ds = (sds, none) →
      ∀ p ∈ ds, trimSpace p ≠ "" := by
  intro ds
  induction ds with
  | nil => intro sds _ p hp; cases hp
  | cons p0 rest ih =>
    intro sds hloop p hp
    simp only [validateSubDirsLoop] at hloop
    by_cases h1 : trimSpace p0 = ""
    · rw [if_pos h1] at hloop
      simp at hloop
    · rw [if_neg h1] at hloop
      by_cases h2 : h.statNotExist (fpJoin h.sep bp (fromSlash h.sep (trimSpace p0))) = true
      · rw [if_pos h2] at hloop
        simp at hloop
      · rw [if_neg h2] at hloop
        injection hloop with hA hB
        rcases List.mem_cons.mp hp with rfl | hmem
        · exact h1
        · exact ih (validateSubDirsLoop h bp rest).1
            (by rw [← hB]) p hmem

theorem validateSubDirsLoop_idem (h : Host) (bp : String) :
    ∀ (ds sds : List String), validateSubDirsLoop h bp ds = (sds, none) →
      validateSubDirsLoop h bp sds = (sds, none) := by
  intro ds
  induction ds with
  | nil =>
    intro sds hloop
    simp only [validateSubDirsLoop] at hloop
    injection hloop with hA _
    subst hA
    rfl
  | cons p0 rest ih =>
    intro sds hloop
    simp only [validateSubDirsLoop] at hloop
    by_cases h1 : trimSpace p0 = ""
    · rw [if_pos h1] at hloop
      simp at hloop
    · rw [if_neg h1] at hloop
      by_cases h2 : h.statNotExist (fpJoin h.sep bp (fromSlash h.sep (trimSpace p0))) = true
      · rw [if_pos h2] at hloop
        simp at hloop
      · rw [if_neg h2] at hloop
        injection hloop with hA hB
        subst hA
        have hrest : validateSubDirsLoop h bp rest =
            ((validateSubDirsLoop h bp rest).1, none) := by rw [← hB]
        have hih := ih _ hrest
        -- the normalized entry is invariant under a second pass
        have htrim : trimSpace (fromSlash h.sep (trimSpace p0)) =
            fromSlash h.sep (trimSpace p0) := by
          rw [trimSpace_fromSlash h.sep h.sepValid, trimSpace_idem]
        have hne : fromSlash h.sep (trimSpace p0) ≠ "" := by
          rw [Ne, fromSlash_eq_empty]
          exact h1
        simp only [validateSubDirsLoop]
        rw [htrim, if_neg hne, fromSlash_idem, if_neg h2, hih]

theorem validateSubDirsLoop_err_shape (h : Host) (bp : String) :
    ∀ (ds sds : List String) (e : GoError), validateSubDirsLoop h bp ds = (sds, some e) →
      e = .invalidSubDir ∨ ∃ p, e = .statNotExist p := by
  intro ds
  induction ds with
  | nil =>
    intro sds e hloop
    simp only [validateSubDirsLoop] at hloop
    simp at hloop
  | cons p0 rest ih =>
    intro sds e hloop
    simp only [validateSubDirsLoop] at hloop
    by_cases h1 : trimSpace p0 = ""
    · rw [if_pos h1] at hloop
      injection hloop with _ hB
      injection hB with hB
      exact Or.inl hB.symm
    · rw [if_neg h1] at hloop
      by_cases h2 : h.statNotExist (fpJoin h.sep bp (fromSlash h.sep (trimSpace p0))) = true
      · rw [if_pos h2] at hloop
        injection hloop with _ hB
        injection hB with hB
        exact Or.inr ⟨_, hB.symm⟩
      · rw [if_neg h2] at hloop
        injection hloop with _ hB
        exact ih (validateSubDirsLoop h bp rest).1 e (by rw [← hB])

theorem buildPathsToFiles_err_shape (h : Host) (c : Config) (dir : String) (e : GoError)
    (he : buildPathsToFiles h c dir = .error e) : ∃ m, e = .readDirError m := by
  simp only [buildPathsToFiles] at he
  rcases hread : readDirFor h c (listedDir h c dir) with e2 | es
  · rw [hread] at he
    injection he with he
    exact ⟨e2, he.symm⟩
  · rw [hread] at he
    cases he

theorem validate_useEmbedded (h : Host) (c : Config) :
    ((validate h c).1).useEmbedded = c.useEmbedded := by
  simp only [validate]
  repeat' split
  all_goals rfl

/-! ## Claim theorems -/

/-- Claim C3: when `Show` is called with a group key absent from the
registry it reports an internal-server-error-class failure (status 500) on
the output sink, writes nothing else, and never falls back to another group;
when the group exists but executing the named template fails it reports a
not-found-class failure (status 404) on the sink and logs the error.  As a
total Lean function, `Show` trivially cannot panic. -/
theorem show_failure_modes (h : Host) (c : Config) (subdir name inj : String) :
    (mapGet c.templates subdir = none →
      Show h c subdir name inj =
        (.httpError statusInternalServerError
          ("templates.Show: invalid subdirectory \x27" ++ subdir ++ "\x27"), [])) ∧
    (∀ t e, mapGet c.templates subdir = some t →
      h.executeTemplate t (resolveShowName h.sep c name) (mkShowData c inj) = .error e →
      Show h c subdir name inj =
        (.httpError statusNotFound e, ["templates.Show: error during execute " ++ e])) := by
  constructor
  · intro hnone
    simp [Show, hnone]
  · intro t e hsome hexec
    simp [Show, hsome, hexec]

/-- Witness for C3 at a concrete host and config: a missing group key yields
a 500-class `http.Error`, and a failing template execution on an existing
group yields a 404-class `http.Error` plus a log line. -/
theorem show_failure_modes_witness :
    Show exHostOnDisk exCfgBuilt "nope" "app" "" =
      (.httpError statusInternalServerError
        "templates.Show: invalid subdirectory \x27nope\x27", []) ∧
    Show exHostOnDisk exCfgBuilt "app" "app" "" =
      (.httpError statusNotFound "boom", ["templates.Show: error during execute boom"]) := by
  constructor
  · exact (show_failure_modes exHostOnDisk exCfgBuilt "nope" "app" "").1 rfl
  · exact (show_failure_modes exHostOnDisk exCfgBuilt "app" "app" "").2
      ["base/app/x.html", "base/h.html"] "boom" rfl rfl

/-- Claim C4: for every directory whose listing succeeds, discovery returns
exactly the immediate non-directory entries whose `filepath.Ext` equals
`"." + extension`, in order, joined onto the directory path; in particular a
directory with no matching entries yields `ok []` (no error), and a
composite extension such as `"report.html.bak"` has extension `".bak"`, so
it is excluded when the configured extension is `"html"`. -/
theorem buildPaths_extension_filter (h : Host) (c : Config) (dir : String)
    (es : List DirEntry)
    (hread : readDirFor h c (listedDir h c dir) = .ok es) :
    buildPathsToFiles h c dir =
      .ok ((es.filter
        (fun f => !f.isDir && (filepathExt h.sep f.name == "." ++ c.extension))).map
        (fun f => entryOutPath h c (listedDir h c dir) f.name)) ∧
    filepathExt h.sep "report.html.bak" = ".bak" := by
  constructor
  · simp only [buildPathsToFiles, hread]
    exact congrArg Except.ok (buildPathsLoop_eq h c _ es)
  · rcases h.sepValid with hs | hs <;> rw [hs] <;> rfl

/-- Witness for C4: on the concrete on-disk host, `base` contains
`h.html` (matched), `report.html.bak` (excluded) and a directory `app`
(excluded); `base/help` exists but has no matching files and yields
`ok []` with no error. -/
theorem buildPaths_extension_filter_witness :
    buildPathsToFiles exHostOnDisk exCfgOnDisk "base" = .ok ["base/h.html"] ∧
    buildPathsToFiles exHostOnDisk exCfgOnDisk "base/help" = .ok [] ∧
    filepathExt exHostOnDisk.sep "report.html.bak" = ".bak" := by
  refine ⟨?_, ?_, (buildPaths_extension_filter exHostOnDisk exCfgOnDisk "base"
    [⟨"h.html", false⟩, ⟨"report.html.bak", false⟩, ⟨"app", true⟩] rfl).2⟩
  · exact (buildPaths_extension_filter exHostOnDisk exCfgOnDisk "base"
      [⟨"h.html", false⟩, ⟨"report.html.bak", false⟩, ⟨"app", true⟩] rfl).1
  · exact (buildPaths_extension_filter exHostOnDisk exCfgOnDisk "base/help" [] rfl).1

/-- Claim C7: in Embedded mode on a host whose path separator is the
backslash (the only host where backslash separators exist), both the
directory path handed to `ReadDir` and every file path returned by
discovery contain no backslash: all separators are normalized to forward
slashes. -/
theorem buildPaths_embedded_forward_slash (h : Host) (c : Config) (dir : String)
    (ps : List String) (hemb : c.useEmbedded = true) (hsep : h.sep = '\\')
    (hok : buildPathsToFiles h c dir = .ok ps) :
    '\\' ∉ (listedDir h c dir).data ∧ ∀ p ∈ ps, '\\' ∉ p.data := by
  have hld : listedDir h c dir = toSlash h.sep dir := by
    simp [listedDir, hemb]
  constructor
  · rw [hld, hsep]
    exact toSlash_no_backslash dir
  · intro p hp
    simp only [buildPathsToFiles] at hok
    rcases hread : readDirFor h c (listedDir h c dir) with e | es
    · rw [hread] at hok
      cases hok
    · rw [hread] at hok
      injection hok with hps
      subst hps
      obtain ⟨f, rfl⟩ := mem_buildPathsLoop h c _ es p hp
      simp only [entryOutPath, hemb, if_true]
      rw [hsep]
      exact toSlash_no_backslash _

/-- Witness for C7 on the Windows-like embedded host: the listed directory
path and the single returned file path are backslash-free. -/
theorem buildPaths_embedded_forward_slash_witness :
    '\\' ∉ (listedDir exHostEmbedded exCfgEmbedded "_testdata\\templates").data ∧
    '\\' ∉ ("_testdata/templates/index.html" : String).data := by
  have hthm := buildPaths_embedded_forward_slash exHostEmbedded exCfgEmbedded
    "_testdata\\templates" ["_testdata/templates/index.html"] rfl rfl rfl
  exact ⟨hthm.1, hthm.2 _ (List.mem_singleton.mpr rfl)⟩

/-- Claim C8: the helper `addInt` applied to 3 and 4 returns 7, and the
helper `dateReformat` applied to the invalid calendar date `"2020-01-32"`
returns the original input string unchanged for every target format (and
every formatter the external `time` library could supply), because
`time.Parse` rejects day 32 of January. -/
theorem helper_funcs_addInt_dateReformat :
    FuncAddInt 3 4 = 7 ∧
    ∀ (timeFormat : GoDate → String → String) (format : String),
      FuncDateReformat timeFormat "2020-01-32" format = "2020-01-32" := by
  constructor
  · decide
  · intro timeFormat format
    have hparse : goTimeParseYMD "2020-01-32" = none := rfl
    simp [FuncDateReformat, hparse]

/-- Claim C9: `Show`'s name-resolution step (`resolveShowName`) appends
`"." + extension` exactly when the name's final path component contains no
dot; any name whose final component contains a dot — whatever follows it,
and whether or not it matches the configured extension — is passed to
template lookup unchanged. -/
theorem show_name_extension_append (sep : Char) (c : Config) (name : String) :
    ('.' ∈ finalComponent sep name → resolveShowName sep c name = name) ∧
    ('.' ∉ finalComponent sep name →
      resolveShowName sep c name = name ++ "." ++ c.extension) := by
  constructor
  · intro hdot
    have hne : filepathExt sep name ≠ "" := by
      rw [Ne, filepathExt_eq_empty_iff]
      exact fun hcon => hcon hdot
    simp [resolveShowName, hne]
  · intro hdot
    have he : filepathExt sep name = "" := (filepathExt_eq_empty_iff sep name).mpr hdot
    simp [resolveShowName, he]

/-- Witness for C9: `"report.backup"` is passed through unchanged even
though `.backup` differs from the configured extension, while `"app"` gets
`".html"` appended. -/
theorem show_name_extension_append_witness :
    resolveShowName '/' exCfgOnDisk "report.backup" = "report.backup" ∧
    resolveShowName '/' exCfgOnDisk "app" = "app.html" := by
  constructor
  · exact (show_name_extension_append '/' exCfgOnDisk "report.backup").1 (by decide)
  · exact (show_name_extension_append '/' exCfgOnDisk "app").2 (by decide)

/-- Counterexample to claim C5 as stated: an Embedded-mode configuration
whose subdirectory list is exactly `[""]` — blank after trimming — is
accepted by `validate`, because the subdirectory checks run only for
on-disk configurations. -/
theorem validate_embedded_blank_subdir_cex :
    exCfgEmbeddedBlank.useEmbedded = true ∧
    exCfgEmbeddedBlank.subDirs = [""] ∧
    trimSpace "" = "" ∧
    (validate exHostEmbedded exCfgEmbeddedBlank).2 = none :=
  ⟨rfl, rfl, rfl, rfl⟩

/-- Claim C5, amended: for every OnDisk (non-embedded) configuration
accepted by `validate`, every entry of the subdirectory list is non-blank
after trimming surrounding whitespace.  (In Embedded mode the check is
skipped and blank entries are accepted — see the counterexample.) -/
theorem validate_ondisk_subdirs_nonblank (h : Host) (c c1 : Config)
    (hemb : c.useEmbedded = false) (hv : validate h c = (c1, none)) :
    ∀ p ∈ c.subDirs, trimSpace p ≠ "" := by
  simp only [validate] at hv
  by_cases h1 : trimSpace c.basePath = ""
  · rw [if_pos h1] at hv
    simp at hv
  · rw [if_neg h1] at hv
    by_cases h2 : (!c.useEmbedded && h.statNotExist (trimSpace c.basePath)) = true
    · rw [if_pos h2] at hv
      simp at hv
    · rw [if_neg h2] at hv
      rcases hloop : (if c.useEmbedded then (c.subDirs, (none : Option GoError))
          else validateSubDirsLoop h (trimSpace c.basePath) c.subDirs) with ⟨sds, ev⟩
      have hloop2 : validateSubDirsLoop h (trimSpace c.basePath) c.subDirs = (sds, ev) := by
        rw [← hloop, hemb]
        simp
      rw [hloop] at hv
      cases ev with
      | some e => simp at hv
      | none => exact validateSubDirsLoop_ok_nonblank h _ c.subDirs sds hloop2

/-- Witness for the amended C5: applying it to the accepted concrete
on-disk configuration shows its first subdirectory entry is non-blank. -/
theorem validate_ondisk_subdirs_nonblank_witness : trimSpace "app" ≠ "" :=
  validate_ondisk_subdirs_nonblank exHostOnDisk exCfgOnDisk
    (validate exHostOnDisk exCfgOnDisk).1 rfl rfl "app" (by decide)

/-- Claim C10: `validate` is idempotent — if it accepts a configuration,
running it again on the resulting normalized configuration also succeeds
and changes nothing: the trimmed base path, normalized subdirectory names
and defaulted extension are all fixed points of a second pass. -/
theorem validate_idempotent (h : Host) (c c1 : Config)
    (hv : validate h c = (c1, none)) : validate h c1 = (c1, none) := by
  simp only [validate] at hv
  by_cases h1 : trimSpace c.basePath = ""
  · rw [if_pos h1] at hv
    simp at hv
  · rw [if_neg h1] at hv
    by_cases h2 : (!c.useEmbedded && h.statNotExist (trimSpace c.basePath)) = true
    · rw [if_pos h2] at hv
      simp at hv
    · rw [if_neg h2] at hv
      rcases hloop : (if c.useEmbedded then (c.subDirs, (none : Option GoError))
          else validateSubDirsLoop h (trimSpace c.basePath) c.subDirs) with ⟨sds, ev⟩
      rw [hloop] at hv
      cases ev with
      | some e => simp at hv
      | none =>
        rw [if_neg (show ¬(((none : Option GoError)).isSome = true) by simp)] at hv
        by_cases h3 : (c.useEmbedded && !c.embeddedFSSet) = true
        · rw [if_pos h3] at hv
          simp at hv
        · rw [if_neg h3] at hv
          injection hv with hA hB
          subst hA
          -- facts about the normalized fields
          have hBtrim : trimSpace (trimSpace c.basePath) = trimSpace c.basePath :=
            trimSpace_idem c.basePath
          have hEtrim : trimSpace (if trimSpace c.extension = "" then defaultExtension
              else trimSpace c.extension) =
              (if trimSpace c.extension = "" then defaultExtension
              else trimSpace c.extension) := by
            by_cases he : trimSpace c.extension = ""
            · rw [if_pos he]
              decide
            · rw [if_neg he]
              exact trimSpace_idem c.extension
          have hEne : (if trimSpace c.extension = "" then defaultExtension
              else trimSpace c.extension) ≠ "" := by
            by_cases he : trimSpace c.extension = ""
            · rw [if_pos he]
              decide
            · rw [if_neg he]
              exact he
          simp only [validate]
          rw [hBtrim, if_neg h1, if_neg h2]
          by_cases hEmb : c.useEmbedded = true
          · rw [hEmb] at h3
            rw [hEmb]
            rw [if_pos rfl]
            rw [if_neg (show ¬(((none : Option GoError)).isSome = true) by simp)]
            rw [hEtrim, if_neg hEne, if_neg h3]
          · have hEmbF : c.useEmbedded = false := by simpa using hEmb
            have hloop2 : validateSubDirsLoop h (trimSpace c.basePath) c.subDirs =
                (sds, none) := by
              rw [← hloop, hEmbF]
              simp
            have hidem := validateSubDirsLoop_idem h _ c.subDirs sds hloop2
            have hsel : (if (false : Bool) = true
                then ((sds : List String), (none : Option GoError))
                else validateSubDirsLoop h (trimSpace c.basePath) sds) = (sds, none) := by
              rw [if_neg (by simp), hidem]
            rw [hEmbF] at h3
            rw [hEmbF, hsel]
            rw [if_neg (show ¬(((none : Option GoError)).isSome = true) by simp)]
            rw [hEtrim, if_neg hEne, if_neg h3]

/-- Witness for C10: a second `validate` pass over the concrete accepted
configuration returns it unchanged with no error. -/
theorem validate_idempotent_witness :
    validate exHostOnDisk ((validate exHostOnDisk exCfgOnDisk).1) =
      ((validate exHostOnDisk exCfgOnDisk).1, none) :=
  validate_idempotent exHostOnDisk exCfgOnDisk _ rfl

/-! ## Helper lemmas: decomposing Build -/

theorem config_set_templates_templates (c : Config) (t : Registry) :
    ({ c with templates := t } : Config).templates = t := rfl

theorem config_set_templates_subDirs (c : Config) (t : Registry) :
    ({ c with templates := t } : Config).subDirs = c.subDirs := rfl

theorem config_set_templates_basePath (c : Config) (t : Registry) :
    ({ c with templates := t } : Config).basePath = c.basePath := rfl

theorem subdirPath_templates (h : Host) (c : Config) (t : Registry) (d : String) :
    subdirPath h { c with templates := t } d = subdirPath h c d := rfl

theorem validate_err_shape (h : Host) (c cv : Config) (e : GoError)
    (hv : validate h c = (cv, some e)) :
    e = .basePathNotSet ∨ e = .invalidSubDir ∨ e = .noEmbeddedFiles ∨
      ∃ p, e = .statNotExist p := by
  simp only [validate] at hv
  by_cases h1 : trimSpace c.basePath = ""
  · rw [if_pos h1] at hv
    injection hv with _ hB
    injection hB with hB
    exact Or.inl hB.symm
  · rw [if_neg h1] at hv
    by_cases h2 : (!c.useEmbedded && h.statNotExist (trimSpace c.basePath)) = true
    · rw [if_pos h2] at hv
      injection hv with _ hB
      injection hB with hB
      exact Or.inr (Or.inr (Or.inr ⟨_, hB.symm⟩))
    · rw [if_neg h2] at hv
      rcases hloop : (if c.useEmbedded then (c.subDirs, (none : Option GoError))
          else validateSubDirsLoop h (trimSpace c.basePath) c.subDirs) with ⟨sds, ev⟩
      rw [hloop] at hv
      cases ev with
      | some e2 =>
        rw [if_pos (show ((some e2 : Option GoError)).isSome = true by simp)] at hv
        injection hv with _ hB
        injection hB with hB
        subst hB
        by_cases hEmb : c.useEmbedded = true
        · rw [hEmb] at hloop
          simp at hloop
        · have hEmbF : c.useEmbedded = false := by simpa using hEmb
          have hloop2 : validateSubDirsLoop h (trimSpace c.basePath) c.subDirs =
              (sds, some e2) := by
            rw [← hloop, hEmbF]
            simp
          rcases validateSubDirsLoop_err_shape h _ c.subDirs sds e2 hloop2 with h4 | ⟨p, h4⟩
          · exact Or.inr (Or.inl h4)
          · exact Or.inr (Or.inr (Or.inr ⟨p, h4⟩))
      | none =>
        rw [if_neg (show ¬(((none : Option GoError)).isSome = true) by simp)] at hv
        by_cases h3 : (c.useEmbedded && !c.embeddedFSSet) = true
        · rw [if_pos h3] at hv
          injection hv with _ hB
          injection hB with hB
          exact Or.inr (Or.inr (Or.inl hB.symm))
        · rw [if_neg h3] at hv
          injection hv with _ hB
          exact Option.noConfusion hB

/-- Claim C6: for every subdirectory of a successfully built configuration
that has at least one matching file, the registry stores under the
subdirectory's name exactly the merge of the subdirectory's own discovered
files followed by the base-directory files (base files appended after
subdirectory files). -/
theorem build_subdir_merge_order (h : Host) (c c1 : Config)
    (hb : Build h c = (c1, none)) :
    ∀ d ∈ c1.subDirs,
      discoveredFiles h c1 (subdirPath h c1 d) ≠ [] →
      mapGet c1.templates d =
        some (discoveredFiles h c1 (subdirPath h c1 d) ++
          discoveredFiles h c1 c1.basePath) := by
  intro d hd hne
  simp only [Build] at hb
  rcases hval : validate h c with ⟨cv, ev⟩
  rw [hval] at hb
  cases ev with
  | some e => simp at hb
  | none =>
    rw [if_neg (show ¬(((none : Option GoError)).isSome = true) by simp)] at hb
    injection hb with hA hB
    subst hA
    simp only [config_set_templates_templates, config_set_templates_subDirs,
      config_set_templates_basePath, subdirPath_templates, discoveredFiles_templates]
      at hd hne ⊢
    rcases hbase : buildPathsToFiles h cv cv.basePath with e2 | bfs
    · simp only [buildFromEmpty, hbase] at hB
      simp at hB
    · simp only [buildFromEmpty, hbase] at hB ⊢
      have hdfb : discoveredFiles h cv cv.basePath = bfs := by
        simp [discoveredFiles, hbase]
      rw [hdfb]
      by_cases hbfs : bfs = []
      · rw [if_pos hbfs] at hB ⊢
        have hrun : buildSubDirs h cv bfs [] cv.subDirs =
            ((buildSubDirs h cv bfs [] cv.subDirs).1, none) := by
          rw [← hB]
        have hlook := buildSubDirs_ok_lookup h cv bfs cv.subDirs [] _ hrun d
        rw [hlook, if_pos ⟨hd, hne⟩]
      · rw [if_neg hbfs] at hB ⊢
        by_cases hpk : h.parseOk bfs = true
        · rw [if_pos hpk] at hB ⊢
          have hrun : buildSubDirs h cv bfs (mapInsert [] "" bfs) cv.subDirs =
              ((buildSubDirs h cv bfs (mapInsert [] "" bfs) cv.subDirs).1, none) := by
            rw [← hB]
          have hlook := buildSubDirs_ok_lookup h cv bfs cv.subDirs (mapInsert [] "" bfs)
            _ hrun d
          rw [hlook, if_pos ⟨hd, hne⟩]
        · rw [if_neg hpk] at hB
          simp at hB

/-- Witness for C6 on the concrete on-disk host: group `app` stores its own
file followed by the base file. -/
theorem build_subdir_merge_order_witness :
    mapGet (Build exHostOnDisk exCfgOnDisk).1.templates "app" =
      some ["base/app/x.html", "base/h.html"] := by
  have hm := build_subdir_merge_order exHostOnDisk exCfgOnDisk
    (Build exHostOnDisk exCfgOnDisk).1 rfl "app" (by decide) (by decide)
  exact hm.trans (by decide)

/-- Claim C2: for every valid OnDisk configuration, a successful `Build`
produces a registry whose key set is exactly the empty-string key when the
base directory has at least one matching file, plus one key per configured
(normalized) subdirectory that has at least one matching file; a
subdirectory with zero matching files contributes no entry (and, as the
witness shows on a concrete host with an empty subdirectory, causes no
error). -/
theorem build_registry_keys (h : Host) (c c1 : Config)
    (hemb : c.useEmbedded = false) (hb : Build h c = (c1, none)) :
    ∀ k, k ∈ registryKeys c1.templates ↔
      ((k = "" ∧ discoveredFiles h c1 c1.basePath ≠ []) ∨
       (k ∈ c1.subDirs ∧ discoveredFiles h c1 (fpJoin h.sep c1.basePath k) ≠ [])) := by
  intro k
  simp only [Build] at hb
  rcases hval : validate h c with ⟨cv, ev⟩
  rw [hval] at hb
  cases ev with
  | some e => simp at hb
  | none =>
    rw [if_neg (show ¬(((none : Option GoError)).isSome = true) by simp)] at hb
    injection hb with hA hB
    subst hA
    have hcvemb : cv.useEmbedded = false := by
      have hue := validate_useEmbedded h c
      rw [hval] at hue
      rw [← hemb]
      exact hue
    have hsp : ∀ x, subdirPath h cv x = fpJoin h.sep cv.basePath x := by
      intro x
      simp [subdirPath, hcvemb]
    simp only [config_set_templates_templates, config_set_templates_subDirs,
      config_set_templates_basePath, discoveredFiles_templates]
    rcases hbase : buildPathsToFiles h cv cv.basePath with e2 | bfs
    · simp only [buildFromEmpty, hbase] at hB
      simp at hB
    · simp only [buildFromEmpty, hbase] at hB ⊢
      have hdfb : discoveredFiles h cv cv.basePath = bfs := by
        simp [discoveredFiles, hbase]
      rw [hdfb]
      by_cases hbfs : bfs = []
      · rw [if_pos hbfs] at hB ⊢
        have hrun : buildSubDirs h cv bfs [] cv.subDirs =
            ((buildSubDirs h cv bfs [] cv.subDirs).1, none) := by
          rw [← hB]
        have hlook := buildSubDirs_ok_lookup h cv bfs cv.subDirs [] _ hrun k
        rw [mem_registryKeys, hlook, hsp k]
        by_cases hcnd : k ∈ cv.subDirs ∧
            discoveredFiles h cv (fpJoin h.sep cv.basePath k) ≠ []
        · rw [if_pos hcnd]
          simp [hcnd]
        · rw [if_neg hcnd]
          simp [hcnd, hbfs, mapGet]
      · rw [if_neg hbfs] at hB ⊢
        by_cases hpk : h.parseOk bfs = true
        · rw [if_pos hpk] at hB ⊢
          have hrun : buildSubDirs h cv bfs (mapInsert [] "" bfs) cv.subDirs =
              ((buildSubDirs h cv bfs (mapInsert [] "" bfs) cv.subDirs).1, none) := by
            rw [← hB]
          have hlook := buildSubDirs_ok_lookup h cv bfs cv.subDirs (mapInsert [] "" bfs)
            _ hrun k
          rw [mem_registryKeys, hlook, hsp k]
          by_cases hcnd : k ∈ cv.subDirs ∧
              discoveredFiles h cv (fpJoin h.sep cv.basePath k) ≠ []
          · rw [if_pos hcnd]
            simp [hcnd]
          · rw [if_neg hcnd]
            by_cases hk : "" = k
            · subst hk
              simp [mapInsert, mapGet, hbfs, hcnd]
            · have hk2 : ¬ (k = "") := fun hh => hk hh.symm
              simp [mapInsert, mapGet, hk, hk2, hcnd]
        · rw [if_neg hpk] at hB
          simp at hB

/-- Witness for C2 on the concrete on-disk host: the built registry has a
key for `app` (one matching file) and no key for `help` (zero matching
files, and the `Build` that produced this registry succeeded). -/
theorem build_registry_keys_witness :
    "app" ∈ registryKeys (Build exHostOnDisk exCfgOnDisk).1.templates ∧
    "help" ∉ registryKeys (Build exHostOnDisk exCfgOnDisk).1.templates := by
  have happ := build_registry_keys exHostOnDisk exCfgOnDisk
    (Build exHostOnDisk exCfgOnDisk).1 rfl rfl "app"
  have hhelp := build_registry_keys exHostOnDisk exCfgOnDisk
    (Build exHostOnDisk exCfgOnDisk).1 rfl rfl "help"
  constructor
  · exact happ.mpr (Or.inr ⟨by decide, by decide⟩)
  · intro hmem
    rcases hhelp.mp hmem with ⟨hk, _⟩ | ⟨_, hne⟩
    · exact absurd hk (by decide)
    · exact absurd hne (by decide)

/-- Counterexample to claim C1 as stated: on a host where the base group
parses but the first subdirectory group fails to compile, `Build` returns a
compile (parse) error, yet the base group inserted earlier in the same
`Build` call is still present in the registry — a partial registry remains
visible for rendering. -/
theorem build_failed_partial_registry_cex :
    (Build exHostParseFail exCfgOnDisk).2 = some (.parseError "app") ∧
    mapGet (Build exHostParseFail exCfgOnDisk).1.templates "" =
      some ["base/h.html"] :=
  ⟨rfl, rfl⟩

/-- Claim C1, amended: when `Build` fails with a compile (parse) error, the
registry contents from before the call are indeed discarded — every entry
still visible was built during the failed call itself, being either the base
group (key `""`, holding the base directory's discovered files) or a
subdirectory group compiled before the error (holding that subdirectory's
files followed by the base files).  Contrary to the original claim, such
groups inserted during the failed call do remain available for rendering
(see the counterexample). -/
theorem build_failed_registry_contents (h : Host) (c c1 : Config) (g : String)
    (hb : Build h c = (c1, some (GoError.parseError g))) :
    ∀ k v, mapGet c1.templates k = some v →
      (k = "" ∧ v = discoveredFiles h c1 c1.basePath ∧ v ≠ []) ∨
      (k ∈ c1.subDirs ∧ discoveredFiles h c1 (subdirPath h c1 k) ≠ [] ∧
        v = discoveredFiles h c1 (subdirPath h c1 k) ++
          discoveredFiles h c1 c1.basePath) := by
  intro k v hget
  simp only [Build] at hb
  rcases hval : validate h c with ⟨cv, ev⟩
  rw [hval] at hb
  cases ev with
  | some e =>
    rw [if_pos (show ((some e : Option GoError)).isSome = true by simp)] at hb
    injection hb with _ hB
    injection hB with hB
    subst hB
    rcases validate_err_shape h c cv _ hval with h4 | h4 | h4 | ⟨p, h4⟩ <;> simp at h4
  | none =>
    rw [if_neg (show ¬(((none : Option GoError)).isSome = true) by simp)] at hb
    injection hb with hA hB
    subst hA
    simp only [config_set_templates_templates, config_set_templates_subDirs,
      config_set_templates_basePath, subdirPath_templates, discoveredFiles_templates]
      at hget ⊢
    rcases hbase : buildPathsToFiles h cv cv.basePath with e2 | bfs
    · simp only [buildFromEmpty, hbase] at hB
      obtain ⟨m, hm⟩ := buildPathsToFiles_err_shape h cv _ e2 hbase
      rw [hm] at hB
      simp at hB
    · simp only [buildFromEmpty, hbase] at hB hget
      have hdfb : discoveredFiles h cv cv.basePath = bfs := by
        simp [discoveredFiles, hbase]
      rw [hdfb]
      by_cases hbfs : bfs = []
      · rw [if_pos hbfs] at hB hget
        have hrun : buildSubDirs h cv bfs [] cv.subDirs =
            ((buildSubDirs h cv bfs [] cv.subDirs).1, some (.parseError g)) := by
          rw [← hB]
        rcases buildSubDirs_err_lookup h cv bfs cv.subDirs [] _ _ hrun k v hget
          with hl | ⟨hm2, hne2, hveq⟩
        · simp [mapGet] at hl
        · exact Or.inr ⟨hm2, hne2, hveq⟩
      · rw [if_neg hbfs] at hB hget
        by_cases hpk : h.parseOk bfs = true
        · rw [if_pos hpk] at hB hget
          have hrun : buildSubDirs h cv bfs (mapInsert [] "" bfs) cv.subDirs =
              ((buildSubDirs h cv bfs (mapInsert [] "" bfs) cv.subDirs).1,
                some (.parseError g)) := by
            rw [← hB]
          rcases buildSubDirs_err_lookup h cv bfs cv.subDirs (mapInsert [] "" bfs)
            _ _ hrun k v hget with hl | ⟨hm2, hne2, hveq⟩
          · by_cases hk : "" = k
            · subst hk
              simp only [mapInsert, mapGet, if_pos rfl] at hl
              injection hl with hl
              exact Or.inl ⟨rfl, hl.symm, fun hcon => hbfs (hl.trans hcon)⟩
            · simp [mapInsert, mapGet, hk] at hl
          · exact Or.inr ⟨hm2, hne2, hveq⟩
        · rw [if_neg hpk] at hget
          simp [mapGet] at hget

/-- Witness for the amended C1: on the concrete failing host, the surviving
registry entry (`""` holding the base file) is accounted for by the failed
call's own base group. -/
theorem build_failed_registry_contents_witness :
    ("" = "" ∧
      (["base/h.html"] : List String) = discoveredFiles exHostParseFail
        (Build exHostParseFail exCfgOnDisk).1
        (Build exHostParseFail exCfgOnDisk).1.basePath ∧
      (["base/h.html"] : List String) ≠ []) ∨
    ("" ∈ (Build exHostParseFail exCfgOnDisk).1.subDirs ∧
      discoveredFiles exHostParseFail (Build exHostParseFail exCfgOnDisk).1
        (subdirPath exHostParseFail (Build exHostParseFail exCfgOnDisk).1 "") ≠ [] ∧
      (["base/h.html"] : List String) =
        discoveredFiles exHostParseFail (Build exHostParseFail exCfgOnDisk).1
          (subdirPath exHostParseFail (Build exHostParseFail exCfgOnDisk).1 "") ++
        discoveredFiles exHostParseFail (Build exHostParseFail exCfgOnDisk).1
          (Build exHostParseFail exCfgOnDisk).1.basePath) :=
  build_failed_registry_contents exHostParseFail exCfgOnDisk
    (Build exHostParseFail exCfgOnDisk).1 "app" rfl "" ["base/h.html"] rfl

end Templates
